import Mathlib

/-!
Shallow embedding of the FunPay-Cardinal "Auto Ticket" plugin
(`auto_ticket.py`), covering: the date normalizer `parse_funpay_date`,
the order scanner `get_old_orders_for_ticket`, the HTTP wrapper
`FunPaySupportAPI.method`, the ticket-response success classifier used by
`_report_deal_problem_raw`, the batch escalation loop
`report_deal_problems`, and the settings-mutating callbacks
`act_send_ticket` (ledger merge tail), `act_edit_time`, `act_edit_count`.

Timestamps are modelled as `Int` seconds (Python uses float seconds; none
of the verified properties depend on sub-second precision).  Python
exceptions are modelled with `Option`/`Except`: a `none`/`.error` result of
an external call stands for the call raising, and the `try/except` blocks
of the source appear as the corresponding `match` branches.
-/

/-- Tests whether the first character list starts the second (their
`String`s being the originals; Python `hay.startswith(needle)` on the code
points).  Structurally recursive so that it evaluates in the kernel. -/
def listStarts : List Char → List Char → Bool
  | [], _ => true
  | _ :: _, [] => false
  | a :: as, b :: bs => a == b && listStarts as bs

/-- Tests whether the first character list occurs contiguously inside the
second (Python `needle in hay` on `str`). -/
def listContains : List Char → List Char → Bool
  | n, [] => n.isEmpty
  | n, c :: rest => listStarts n (c :: rest) || listContains n rest

/-- Substring containment, modelling Python's `needle in hay` on `str`
(a Python `str` is a sequence of code points, as is `String.data`). -/
def pyIn (needle hay : String) : Bool :=
  listContains needle.data hay.data

/-- Python `hay.startswith(needle)`. -/
def pyStartsWith (needle hay : String) : Bool :=
  listStarts needle.data hay.data

/-- Python `s.strip()`: leading and trailing whitespace removed. -/
def pyStrip (s : String) : String :=
  String.mk
    (((s.data.dropWhile Char.isWhitespace).reverse.dropWhile
        Char.isWhitespace).reverse)

/-- Left-to-right, non-overlapping replacement of `pat` by `repl`, the
semantics of Python `s.replace(pat, repl)` for a non-empty pattern.  The
fuel argument (instantiated with the length of the list) keeps the
recursion structural. -/
def listReplaceGo (pat repl : List Char) : Nat → List Char → List Char
  | _, [] => []
  | 0, l => l
  | fuel + 1, c :: rest =>
    if listStarts pat (c :: rest) then
      repl ++ listReplaceGo pat repl fuel (rest.drop (pat.length - 1))
    else
      c :: listReplaceGo pat repl fuel rest

/-- Python `s.replace(pat, repl)` (the plugin only uses non-empty
patterns). -/
def pyReplace (s pat repl : String) : String :=
  String.mk (listReplaceGo pat.data repl.data s.data.length s.data)

/-- The result of Python `t.split(":")`: split at every colon, keeping
empty fields. -/
def listSplitColon : List Char → List (List Char)
  | [] => [[]]
  | c :: rest =>
    if c == ':' then [] :: listSplitColon rest
    else
      match listSplitColon rest with
      | [] => [[c]]
      | g :: gs => (c :: g) :: gs

/-- Python `t.split(":")` returning strings. -/
def pySplitColon (t : String) : List String :=
  (listSplitColon t.data).map String.mk

/-- Python `int(t)` restricted to plain decimal digit strings (the forms
produced by the date strings this plugin parses); any other string is a
parse failure, as `int` raising `ValueError`. -/
def pyToNat (t : String) : Option Nat :=
  if t.data ≠ [] ∧ t.data.all (fun c => c.isDigit) then
    some (t.data.foldl (fun n c => n * 10 + (c.toNat - 48)) 0)
  else none

/-- Python `str.lower()` restricted to the alphabets this plugin meets:
ASCII `A`–`Z` and Cyrillic `А`–`Я` / `Ё`.  Other characters are unchanged. -/
def pyLowerChar (c : Char) : Char :=
  if 65 ≤ c.toNat ∧ c.toNat ≤ 90 then Char.ofNat (c.toNat + 32)
  else if 0x410 ≤ c.toNat ∧ c.toNat ≤ 0x42F then Char.ofNat (c.toNat + 32)
  else if c.toNat = 0x401 then Char.ofNat 0x451
  else c

/-- `pyLower s` maps `pyLowerChar` over the string, modelling `s.lower()`. -/
def pyLower (s : String) : String :=
  String.mk (s.data.map pyLowerChar)

/-- Argument of `parse_funpay_date`: either an actual `datetime` (carrying
its `timestamp()` value) or an arbitrary string (`str(date_obj)`). -/
inductive DateInput where
  | dt (ts : Int)
  | str (s : String)
deriving DecidableEq

/-- Ambient date context for `parse_funpay_date`.  The fields model the
`datetime` library calls made by the source; a `none` result of one of the
`strptime` fields models `datetime.strptime` raising `ValueError` for the
given string, which the bare `except:` of the source turns into the
sentinel `0`:
* `nowTs` — `datetime.now().timestamp()`;
* `todayAt h m` — `datetime.now().replace(hour=h, minute=m, second=0,
  microsecond=0).timestamp()`;
* `yesterdayAt h m` — `(now - timedelta(days=1)).replace(hour=0, minute=0,
  second=0, microsecond=0).replace(hour=h, minute=m).timestamp()`;
* `strpDayMonthV s` — `datetime.strptime(s, "%d %b в %H:%M")
  .replace(year=now.year).timestamp()`;
* `strpDayMonthComma s` — the same with format `"%d %b, %H:%M"`;
* `strpIso s` — `datetime.strptime(s, "%Y-%m-%d %H:%M:%S").timestamp()`. -/
structure DateCtx where
  nowTs : Int
  todayAt : Nat → Nat → Int
  yesterdayAt : Nat → Nat → Int
  strpDayMonthV : String → Option Int
  strpDayMonthComma : String → Option Int
  strpIso : String → Option Int

/-- Models `h, m = map(int, t.split(":"))` followed by
`replace(hour=h, minute=m)`: the split must yield exactly two decimal
fields and the resulting hour/minute must be in range, otherwise Python
raises (`ValueError`), modelled as `none`. -/
def parseHM (t : String) : Option (Nat × Nat) :=
  match pySplitColon t with
  | [hs, ms] =>
    match pyToNat hs, pyToNat ms with
    | some h, some m => if h ≤ 23 ∧ m ≤ 59 then some (h, m) else none
    | _, _ => none
  | _ => none

/-- Body of the `try:` block of `parse_funpay_date` on the stripped string:
returns `none` exactly when that block would raise (caught by the bare
`except:` which returns the sentinel `0`). -/
def parseDateStr (ctx : DateCtx) (s : String) : Option Int :=
  if pyStartsWith "Сегодня" s then
    match parseHM (pyReplace s "Сегодня в " "") with
    | some (h, m) => some (ctx.todayAt h m)
    | none => none
  else if pyStartsWith "Вчера" s then
    match parseHM (pyReplace s "Вчера в " "") with
    | some (h, m) => some (ctx.yesterdayAt h m)
    | none => none
  else if pyIn " в " s then ctx.strpDayMonthV s
  else if pyIn "," s then ctx.strpDayMonthComma s
  else ctx.strpIso s

/-- `parse_funpay_date` (auto_ticket.py lines 71–93): a `datetime` argument
is returned as its timestamp; a string argument is stripped and parsed by
`parseDateStr`, with any parse failure mapped to the sentinel `0`. -/
def parse_funpay_date (ctx : DateCtx) : DateInput → Int
  | .dt ts => ts
  | .str s =>
    match parseDateStr ctx (pyStrip s) with
    | some t => t
    | none => 0

/-- Shapes accepted by the dispatch of `parse_funpay_date`'s `try:` block
(the last, ISO, branch is "supported" when `strptime` accepts it). -/
def SupportedShape (ctx : DateCtx) (t : String) : Prop :=
  pyStartsWith "Сегодня" t = true ∨ pyStartsWith "Вчера" t = true ∨
    pyIn " в " t = true ∨ pyIn "," t = true ∨ (ctx.strpIso t).isSome = true

instance (ctx : DateCtx) (t : String) : Decidable (SupportedShape ctx t) := by
  unfold SupportedShape; infer_instance

/-- One order row of a `get_sales` page: `idStr` is `str(order_data.id)`
and `date` is `order_data.date`. -/
structure OrderData where
  idStr : String
  date : DateInput
deriving DecidableEq

/-- Behaviour of `acc.get_sales`, indexed by the number of previous calls
and the current `start_from` cursor.  A `none` result models the call
raising (caught and turned into `break` by the source); otherwise the
result is `(next_start_from, page_of_orders)`. -/
def FetchFn : Type :=
  Nat → Option String → Option (Option String × List OrderData)

/-- Python falsiness of the `start_from` cursor (`if not start_from`):
`None` or the empty string. -/
def cursorFalsy : Option String → Bool
  | none => true
  | some s => s = ""

/-- The conditional append of one order id inside the page loop:
`if order_timestamp < cutoff_timestamp and order_id not in
SETTINGS.sent_order_ids: old_orders_ids.append(order_id)`. -/
def scanAppend (sent : List String) (cutoff : Int) (old : List String)
    (oid : String) (ots : Int) : List String :=
  if ots < cutoff ∧ ¬ oid ∈ sent then old ++ [oid] else old

/-- The `for order_data in result[1]:` loop of `get_old_orders_for_ticket`:
skips orders with sentinel timestamp `0`, records the timestamp in
`batch_timestamps`, appends eligible ids, and breaks out of the page once
`max_count` ids have been collected.  Returns the updated id accumulator
and the collected batch timestamps. -/
def processPage (ctx : DateCtx) (sent : List String) (cutoff : Int)
    (maxCount : Nat) :
    List OrderData → List String → List Int → List String × List Int
  | [], old, ts => (old, ts)
  | o :: rest, old, ts =>
    if parse_funpay_date ctx o.date = 0 then
      processPage ctx sent cutoff maxCount rest old ts
    else
      if maxCount ≤ (scanAppend sent cutoff old o.idStr
          (parse_funpay_date ctx o.date)).length then
        (scanAppend sent cutoff old o.idStr (parse_funpay_date ctx o.date),
         ts ++ [parse_funpay_date ctx o.date])
      else
        processPage ctx sent cutoff maxCount rest
          (scanAppend sent cutoff old o.idStr (parse_funpay_date ctx o.date))
          (ts ++ [parse_funpay_date ctx o.date])

/-- The early-termination test after a page:
`if batch_timestamps: min(batch_timestamps) >= cutoff_timestamp → break`. -/
def batchStop (cutoff : Int) : List Int → Bool
  | [] => false
  | t :: rest => cutoff ≤ rest.foldl min t

/-- The `while len(old_orders_ids) < max_count and page_count < max_pages:`
loop of `get_old_orders_for_ticket`.  `fuel` is `max_pages - page_count`
(initially 10) and `calls` counts the `get_sales` invocations made so far
(a call whose page raises or terminates the loop is still counted).
Returns the accumulated ids and the total number of `get_sales` calls. -/
def scanGo (ctx : DateCtx) (fetch : FetchFn) (sent : List String)
    (cutoff : Int) (maxCount : Nat) :
    Nat → List String → Nat → Option String → List String × Nat
  | 0, old, calls, _ => (old, calls)
  | fuel + 1, old, calls, cursor =>
    if old.length < maxCount then
      match fetch calls cursor with
      | none => (old, calls + 1)
      | some (nextCur, orders) =>
        if orders.isEmpty then (old, calls + 1)
        else
          if batchStop cutoff
              (processPage ctx sent cutoff maxCount orders old []).2 then
            ((processPage ctx sent cutoff maxCount orders old []).1, calls + 1)
          else if cursorFalsy nextCur then
            ((processPage ctx sent cutoff maxCount orders old []).1, calls + 1)
          else
            scanGo ctx fetch sent cutoff maxCount fuel
              (processPage ctx sent cutoff maxCount orders old []).1
              (calls + 1) nextCur
    else (old, calls)

/-- The whole scan with the hard page ceiling `max_pages = 10`, returning
the final `old_orders_ids[:max_count]` together with the number of
`get_sales` calls performed. -/
def get_old_orders_scan (ctx : DateCtx) (fetch : FetchFn)
    (sent : List String) (cutoff : Int) (maxCount : Nat) :
    List String × Nat :=
  ((scanGo ctx fetch sent cutoff maxCount 10 [] 0 none).1.take maxCount,
   (scanGo ctx fetch sent cutoff maxCount 10 [] 0 none).2)

/-- `get_old_orders_for_ticket` (auto_ticket.py lines 96–144): computes
`cutoff = (now - timedelta(hours=age_hours)).timestamp()` and runs the
scan loop against the order source `fetch` and the ledger snapshot
`sent` (= `SETTINGS.sent_order_ids` at the start of the scan). -/
def get_old_orders_for_ticket (ctx : DateCtx) (fetch : FetchFn)
    (sent : List String) (ageHours : Int) (maxCount : Nat) : List String :=
  (get_old_orders_scan ctx fetch sent (ctx.nowTs - ageHours * 3600)
    maxCount).1

/-- A `requests.Response` as far as the redirect loop inspects it:
`location` is `response.headers.get('Location')` (`none` = header absent). -/
structure HttpResponse where
  status : Nat
  location : Option String
deriving DecidableEq

/-- The HTTP transport underlying `FunPaySupportAPI.method`: arguments are
the request method string, the index of the call within one `method`
invocation, the target URL, and the `allow_redirects` flag (`false` for
the manual hop requests, `true` — the `requests` default — for the
fallback reissue). -/
def SendFn : Type :=
  String → Nat → String → Bool → HttpResponse

/-- The follow/break decision of the redirect loop: the loop breaks when
`not (300 <= status < 400) or not headers.get('Location') or
headers.get('Location') == '/'`, so it follows exactly when the status is
in 300–399 and the `Location` header is present, non-empty and not `"/"`;
in that case the result is the next link. -/
def redirectTarget (r : HttpResponse) : Option String :=
  if 300 ≤ r.status ∧ r.status < 400 then
    match r.location with
    | some l => if l = "" ∨ l = "/" then none else some l
    | none => none
  else none

/-- Result of one `FunPaySupportAPI.method` call: the returned response,
the list of URLs requested by the manual hop loop (the original URL first),
and whether the `for ... else` fallback request was issued. -/
structure MethodResult where
  resp : HttpResponse
  hops : List String
  fallback : Bool
deriving DecidableEq

/-- The `for i in range(10): ... else: ...` redirect loop of
`FunPaySupportAPI.method` (auto_ticket.py lines 158–176).  `fuel` is the
number of remaining loop iterations, `i` the index of the next transport
call, `link` the current URL and `hops` the URLs requested so far.  When
the fuel runs out without a break, the `else:` clause reissues the request
to the original URL with the library-default `allow_redirects=True`. -/
def methodGo (send : SendFn) (meth origUrl : String) :
    Nat → Nat → String → List String → MethodResult
  | 0, i, _, hops => ⟨send meth i origUrl true, hops, true⟩
  | fuel + 1, i, link, hops =>
    match redirectTarget (send meth i link false) with
    | none => ⟨send meth i link false, hops ++ [link], false⟩
    | some nxt => methodGo send meth origUrl fuel (i + 1) nxt (hops ++ [link])

/-- `FunPaySupportAPI.method`: the cookie/user-agent header preparation is
absorbed into `send`; the redirect loop starts at the requested URL with
ten iterations of fuel. -/
def FunPaySupportAPI.method (send : SendFn) (meth url : String) :
    MethodResult :=
  methodGo send meth url 10 0 url []

/-- The redirect chain property of a hop-URL list: each response obtained
for a URL in the list (with `allow_redirects=False`) was a followable
redirect whose `Location` is the next URL in the list. -/
def chainFrom (send : SendFn) (meth : String) : Nat → List String → Bool
  | _, [] => true
  | _, [_] => true
  | i, a :: b :: rest =>
    (redirectTarget (send meth i a false) == some b)
      && chainFrom send meth (i + 1) (b :: rest)

/-- The JSON body returned by the ticket-creation endpoint, as far as
`_report_deal_problem_raw` inspects it.  `none` models a missing key (or a
non-string value, which compares unequal to any string just as in Python);
`response_json.get('message', '')` / `.get('url', '')` are modelled by
`Option.getD _ ""`. -/
structure TicketResponse where
  action : Option String
  message : Option String
  url : Option String
deriving DecidableEq

/-- The success phrase tested by `_report_deal_problem_raw`. -/
def successPhrase : String := "заявка отправлена"

/-- The success test of `_report_deal_problem_raw` (auto_ticket.py line
241): `response_json.get('action') == 'message' and 'заявка отправлена' in
response_json.get('message', '').lower() and '/tickets/' in
response_json.get('url', '')`. -/
def classifySuccess (r : TicketResponse) : Bool :=
  decide (r.action = some "message")
    && pyIn successPhrase (pyLower (r.message.getD ""))
    && pyIn "/tickets/" (r.url.getD "")

/-- The spec's reading of the success rule, stated independently of the
classifier: the action field equals `"message"`, the lowercased message
contains the success phrase, and the url contains `"/tickets/"`. -/
def SpecTicketSuccess (r : TicketResponse) : Prop :=
  r.action = some "message"
    ∧ successPhrase.data <:+: (pyLower (r.message.getD "")).data
    ∧ "/tickets/".data <:+: (r.url.getD "").data

/-- Order statuses (`FunPayAPI.types.OrderStatuses`): only `PAID` is
eligible for escalation. -/
inductive OrderStatus where
  | PAID
  | CLOSED
  | REFUNDED
deriving DecidableEq

/-- External behaviour consumed by one per-order escalation step:
`getOrder` models `acc.get_order(deal_id).status` (`none` = the call
raised); `submit` models the session bootstrap `FunPaySupportAPI.get()`
followed by `create_ticket` and `r.json()` (`.error ()` = any of those
raised, `.ok r` = the parsed JSON response). -/
structure SupportEnv where
  getOrder : String → Option OrderStatus
  submit : String → Except Unit TicketResponse

/-- Body of the outer `try:` of `_report_deal_problem_raw` (auto_ticket.py
lines 224–250): the inner `try/except` around `get_order` returns `False`
on error, a non-`PAID` status returns `False`, and an error escaping from
the bootstrap/submission propagates to the outer handler. -/
def reportStep (env : SupportEnv) (dealId : String) : Except Unit Bool :=
  match env.getOrder dealId with
  | none => .ok false
  | some st =>
    if st = OrderStatus.PAID then
      match env.submit dealId with
      | .error e => .error e
      | .ok r => .ok (classifySuccess r)
    else .ok false

/-- `_report_deal_problem_raw` with its outer `except Exception:` handler:
any error raised by the step is caught and turned into `False`. -/
def report_deal_problem_raw (env : SupportEnv) (dealId : String) : Bool :=
  match reportStep env dealId with
  | .ok b => b
  | .error _ => false

/-- `report_deal_problems` (auto_ticket.py lines 253–267): processes every
id in order, appending those whose per-order step returned `True` (the
`await asyncio.sleep(2)` pacing has no effect on the result). -/
def report_deal_problems (env : SupportEnv) : List String → List String
  | [] => []
  | d :: rest =>
    if report_deal_problem_raw env d then d :: report_deal_problems env rest
    else report_deal_problems env rest

/-- The persisted plugin settings (`Settings` model): `sent_order_ids` is
the escalation ledger, stored as a list extended by `act_send_ticket`. -/
structure PSettings where
  order_age_hours : Int
  max_orders_in_ticket : Int
  sent_order_ids : List String
deriving DecidableEq

/-- Tail of `act_send_ticket` (auto_ticket.py lines 349–351):
`if sent_count > 0: SETTINGS.sent_order_ids.extend(reported_orders);
SETTINGS.save()`.  The boolean records whether `save()` was called. -/
def act_send_ticket_finish (s : PSettings) (reported : List String) :
    PSettings × Bool :=
  if 0 < reported.length then
    ({ s with sent_order_ids := s.sent_order_ids ++ reported }, true)
  else (s, false)

/-- One Orchestrator run over a given candidate list followed by the
ledger merge of `act_send_ticket`: returns the settings after the run. -/
def runOrchestratorOnce (env : SupportEnv) (s : PSettings)
    (candidates : List String) : PSettings :=
  (act_send_ticket_finish s (report_deal_problems env candidates)).1

/-- The message handler of `act_edit_time` (auto_ticket.py lines 353–369):
the argument is the result of `int(m.text)` (`none` = `int` raised); a
value in `[1, 720]` is stored and saved, anything else leaves the settings
untouched and unsaved.  The boolean records whether `save()` was called. -/
def act_edit_time_handler (s : PSettings) (v : Option Int) :
    PSettings × Bool :=
  match v with
  | none => (s, false)
  | some val =>
    if 1 ≤ val ∧ val ≤ 720 then ({ s with order_age_hours := val }, true)
    else (s, false)

/-- The message handler of `act_edit_count` (auto_ticket.py lines 371–387),
with bounds `[1, 50]` on `max_orders_in_ticket`. -/
def act_edit_count_handler (s : PSettings) (v : Option Int) :
    PSettings × Bool :=
  match v with
  | none => (s, false)
  | some val =>
    if 1 ≤ val ∧ val ≤ 50 then ({ s with max_orders_in_ticket := val }, true)
    else (s, false)

/-- A support backend for which every escalation succeeds: the order is
always `PAID` and the submission always returns the success response. -/
def envAllSuccess : SupportEnv where
  getOrder := fun _ => some OrderStatus.PAID
  submit := fun _ =>
    .ok { action := some "message", message := some "Заявка отправлена",
          url := some "/tickets/1" }

/-- A support backend for which every step fails: `get_order` always
raises and so does the submission. -/
def envFail : SupportEnv where
  getOrder := fun _ => none
  submit := fun _ => .error ()

/-- A concrete date context used to evaluate the model on closed inputs:
`now` is second 3700, so a 1-hour age cutoff falls at second 100; the
`strptime` fields reject every string. -/
def ctxW : DateCtx where
  nowTs := 3700
  todayAt := fun _ _ => 0
  yesterdayAt := fun _ _ => 0
  strpDayMonthV := fun _ => none
  strpDayMonthComma := fun _ => none
  strpIso := fun _ => none

/-- A concrete one-page order source: order `A` at second 50 and order `B`
at second 60, with no further pages. -/
def fetchW : FetchFn := fun _ _ =>
  some (none, [⟨"A", .dt 50⟩, ⟨"B", .dt 60⟩])

/-- A transport that answers every request with a `302` redirect to a
fixed non-root target, driving the redirect loop to its hop limit. -/
def sendLoop : SendFn := fun _ _ _ _ =>
  { status := 302, location := some "https://support.funpay.com/login" }

/-! ### Theorems -/

/-- C5: `parse_funpay_date` never raises an unhandled error (it is a total
function of its input and date context) and always returns a number: a
`datetime` input yields its own timestamp, any parse failure of a string
input yields exactly the sentinel `0`, and a string whose (stripped) shape
matches none of the supported date-string forms always fails to parse. -/
theorem parse_funpay_date_sentinel (ctx : DateCtx) (s : String) (ts : Int) :
    parse_funpay_date ctx (.dt ts) = ts
    ∧ (parseDateStr ctx (pyStrip s) = none → parse_funpay_date ctx (.str s) = 0)
    ∧ (¬ SupportedShape ctx (pyStrip s) → parseDateStr ctx (pyStrip s) = none) := by
  refine ⟨rfl, ?_, ?_⟩
  · intro h
    simp only [parse_funpay_date]
    rw [h]
  · intro h
    rw [SupportedShape] at h
    push_neg at h
    obtain ⟨h1, h2, h3, h4, h5⟩ := h
    simp only [ne_eq, Bool.not_eq_true] at h1 h2 h3 h4
    simp only [parseDateStr, h1, h2, h3, h4, Bool.false_eq_true, if_false]
    exact Option.not_isSome_iff_eq_none.mp (by simpa using h5)

/-- Witness for C5 at a concrete unparseable string. -/
theorem parse_funpay_date_sentinel_witness :
    parse_funpay_date ctxW (.str "not a date") = 0 :=
  (parse_funpay_date_sentinel ctxW "not a date" 0).2.1 (by decide)

/-- The executable containment test agrees with list-prefix. -/
theorem listStarts_iff (n h : List Char) : listStarts n h = true ↔ n <+: h := by
  induction n generalizing h with
  | nil => simp [listStarts]
  | cons a as ih =>
    cases h with
    | nil => simp [listStarts]
    | cons b bs =>
      simp [listStarts, List.cons_prefix_cons, ih, Bool.and_eq_true,
        beq_iff_eq]

/-- The executable containment test agrees with list-infix. -/
theorem listContains_iff (n h : List Char) :
    listContains n h = true ↔ n <:+: h := by
  induction h with
  | nil => simp [listContains, List.isEmpty_iff]
  | cons c rest ih =>
    simp [listContains, Bool.or_eq_true, listStarts_iff, ih,
      List.infix_cons_iff]

/-- C4: the orchestrator classifies a ticket-submission response as a
success iff its `action` field equals `"message"`, its `message` field
case-insensitively contains the success phrase, and its `url` field
contains `"/tickets/"`; the classifier is a total Boolean function (it
never throws), and the spec's two end-to-end examples evaluate as stated
(missing fields included). -/
theorem ticket_success_classification (r : TicketResponse) :
    (classifySuccess r = true ↔ SpecTicketSuccess r)
    ∧ classifySuccess
        { action := some "message", message := some "Заявка отправлена",
          url := some "/tickets/55" } = true
    ∧ classifySuccess
        { action := some "error", message := some "Произошла ошибка",
          url := none } = false
    ∧ classifySuccess { action := none, message := none, url := none }
        = false := by
  refine ⟨?_, by decide, by decide, by decide⟩
  simp [classifySuccess, SpecTicketSuccess, pyIn, listContains_iff, and_assoc]

/-- C9: the settings editors accept the in-bounds values 1 and 720 (age)
and 1 and 50 (batch size), storing them and persisting, and reject 0, 721,
0, 51 respectively, leaving the settings unchanged and unpersisted. -/
theorem settings_edit_bounds (s : PSettings) :
    act_edit_time_handler s (some 1) = ({ s with order_age_hours := 1 }, true)
    ∧ act_edit_time_handler s (some 720)
        = ({ s with order_age_hours := 720 }, true)
    ∧ act_edit_time_handler s (some 0) = (s, false)
    ∧ act_edit_time_handler s (some 721) = (s, false)
    ∧ act_edit_count_handler s (some 1)
        = ({ s with max_orders_in_ticket := 1 }, true)
    ∧ act_edit_count_handler s (some 50)
        = ({ s with max_orders_in_ticket := 50 }, true)
    ∧ act_edit_count_handler s (some 0) = (s, false)
    ∧ act_edit_count_handler s (some 51) = (s, false) := by
  refine ⟨?_, ?_, ?_, ?_, ?_, ?_, ?_, ?_⟩ <;>
    norm_num [act_edit_time_handler, act_edit_count_handler]

/-- C10: when no escalation in a batch succeeded, the ledger-merge tail of
`act_send_ticket` leaves the settings untouched and does not save; and the
extend-and-save side effect occurs only when at least one id was reported
successfully. -/
theorem ledger_untouched_on_zero_success (env : SupportEnv) (s : PSettings)
    (orders : List String) (h : report_deal_problems env orders = []) :
    act_send_ticket_finish s (report_deal_problems env orders) = (s, false)
    ∧ ∀ reported : List String,
        (act_send_ticket_finish s reported).2 = true → reported ≠ [] := by
  constructor
  · rw [h]
    simp [act_send_ticket_finish]
  · intro reported ht hne
    subst hne
    simp [act_send_ticket_finish] at ht

/-- Witness for C10: a backend where every step fails reports nothing and
the settings come back unchanged, unsaved. -/
theorem ledger_untouched_on_zero_success_witness :
    act_send_ticket_finish ⟨24, 10, []⟩ (report_deal_problems envFail ["5"])
      = (⟨24, 10, []⟩, false) :=
  (ledger_untouched_on_zero_success envFail ⟨24, 10, []⟩ ["5"] (by decide)).1

/-- C8: the batch loop `report_deal_problems` processes every id of its
input (its result is exactly the filter of the input by the per-order
step) and returns normally; the per-order step maps an error raised while
re-fetching the order status, or while bootstrapping/submitting, to
`false` instead of propagating, so no single order's failure aborts the
batch. -/
theorem batch_failure_isolation (env : SupportEnv) (ids : List String) :
    report_deal_problems env ids
      = ids.filter (fun d => report_deal_problem_raw env d)
    ∧ (∀ d, env.getOrder d = none → report_deal_problem_raw env d = false)
    ∧ (∀ d, env.submit d = .error ()
        → report_deal_problem_raw env d = false) := by
  refine ⟨?_, ?_, ?_⟩
  · induction ids with
    | nil => rfl
    | cons d rest ih => simp [report_deal_problems, List.filter_cons, ih]
  · intro d h
    simp [report_deal_problem_raw, reportStep, h]
  · intro d h
    cases hg : env.getOrder d with
    | none => simp [report_deal_problem_raw, reportStep, hg]
    | some st =>
      by_cases hst : st = OrderStatus.PAID
      · subst hst
        simp [report_deal_problem_raw, reportStep, hg, h]
      · simp [report_deal_problem_raw, reportStep, hg, hst]

/-- Witness for C8: with a backend whose `get_order` always raises, the
per-order step returns `false` rather than propagating. -/
theorem batch_failure_isolation_witness :
    report_deal_problem_raw envFail "ORDER1" = false :=
  (batch_failure_isolation envFail ["ORDER1"]).2.1 "ORDER1" rfl

/-- C6: the scanner returns at most `max_batch` order ids for every valid
batch size in `[1, 50]` (the final `old_orders_ids[:max_count]` enforces
the bound). -/
theorem scanner_batch_bound (ctx : DateCtx) (fetch : FetchFn)
    (sent : List String) (ageHours : Int) (maxCount : Nat)
    (h1 : 1 ≤ maxCount) (h2 : maxCount ≤ 50) :
    (get_old_orders_for_ticket ctx fetch sent ageHours maxCount).length
      ≤ maxCount := by
  rw [get_old_orders_for_ticket, get_old_orders_scan]
  simp [List.length_take]

/-- Witness for C6 at batch size 1 against the concrete order source. -/
theorem scanner_batch_bound_witness :
    (1 ≤ 1 ∧ 1 ≤ 50)
    ∧ (get_old_orders_for_ticket ctxW fetchW ["A"] 1 1).length ≤ 1 :=
  ⟨by decide, scanner_batch_bound ctxW fetchW ["A"] 1 1 (by decide) (by decide)⟩

/-- Each loop round of the scan makes at most one `get_sales` call, so the
call count grows by at most the remaining fuel. -/
theorem scanGo_calls_le (ctx : DateCtx) (fetch : FetchFn)
    (sent : List String) (cutoff : Int) (maxCount : Nat) :
    ∀ fuel old calls cursor,
      (scanGo ctx fetch sent cutoff maxCount fuel old calls cursor).2
        ≤ calls + fuel := by
  intro fuel
  induction fuel with
  | zero =>
    intro old calls cursor
    simp [scanGo]
  | succ n ih =>
    intro old calls cursor
    simp only [scanGo]
    split
    · split
      · dsimp only
        omega
      · split
        · dsimp only
          omega
        · split
          · dsimp only
            omega
          · split
            · dsimp only
              omega
            · exact (ih _ _ _).trans (by omega)
    · dsimp only
      omega

/-- C7: regardless of the age cutoff, the batch size and the behaviour of
the order source, the scan performs at most 10 `get_sales` page fetches
(`max_pages = 10`), so the scan loop terminates. -/
theorem scanner_page_limit (ctx : DateCtx) (fetch : FetchFn)
    (sent : List String) (cutoff : Int) (maxCount : Nat) :
    (get_old_orders_scan ctx fetch sent cutoff maxCount).2 ≤ 10 := by
  have h := scanGo_calls_le ctx fetch sent cutoff maxCount 10 [] 0 none
  simpa [get_old_orders_scan] using h

/-- An id appended by the page loop's conditional append is either an old
entry of the accumulator or absent from the sent ledger. -/
theorem scanAppend_mem (sent : List String) (cutoff : Int)
    (old : List String) (oid : String) (ots : Int) (x : String)
    (hx : x ∈ scanAppend sent cutoff old oid ots) : x ∈ old ∨ x ∉ sent := by
  by_cases hc : ots < cutoff ∧ ¬ oid ∈ sent
  · rw [scanAppend, if_pos hc] at hx
    rcases List.mem_append.mp hx with h | h
    · exact Or.inl h
    · rw [List.mem_singleton] at h
      subst h
      exact Or.inr hc.2
  · rw [scanAppend, if_neg hc] at hx
    exact Or.inl hx

/-- Invariant of the page loop: every id of the result accumulator is an
old entry or absent from the sent ledger. -/
theorem processPage_mem (ctx : DateCtx) (sent : List String) (cutoff : Int)
    (maxCount : Nat) :
    ∀ orders old ts x,
      x ∈ (processPage ctx sent cutoff maxCount orders old ts).1 →
        x ∈ old ∨ x ∉ sent := by
  intro orders
  induction orders with
  | nil =>
    intro old ts x hx
    exact Or.inl hx
  | cons o rest ih =>
    intro old ts x hx
    simp only [processPage] at hx
    split at hx
    · exact ih old ts x hx
    · split at hx
      · exact scanAppend_mem _ _ _ _ _ _ hx
      · rcases ih _ _ x hx with h | h
        · exact scanAppend_mem _ _ _ _ _ _ h
        · exact Or.inr h

/-- Invariant of the whole scan loop: every collected id is an initial
accumulator entry or absent from the sent ledger. -/
theorem scanGo_mem (ctx : DateCtx) (fetch : FetchFn) (sent : List String)
    (cutoff : Int) (maxCount : Nat) :
    ∀ fuel old calls cursor x,
      x ∈ (scanGo ctx fetch sent cutoff maxCount fuel old calls cursor).1 →
        x ∈ old ∨ x ∉ sent := by
  intro fuel
  induction fuel with
  | zero =>
    intro old calls cursor x hx
    exact Or.inl hx
  | succ n ih =>
    intro old calls cursor x hx
    simp only [scanGo] at hx
    split at hx
    · split at hx
      · exact Or.inl hx
      · split at hx
        · exact Or.inl hx
        · split at hx
          · exact processPage_mem _ _ _ _ _ _ _ _ hx
          · split at hx
            · exact processPage_mem _ _ _ _ _ _ _ _ hx
            · rcases ih _ _ _ x hx with h | h
              · exact processPage_mem _ _ _ _ _ _ _ _ h
              · exact Or.inr h
    · exact Or.inl hx

/-- C1: the scanner never returns an order id that was in the ledger's
sent set at the start of the scan — the result is disjoint from `sent`. -/
theorem scanner_never_returns_sent (ctx : DateCtx) (fetch : FetchFn)
    (sent : List String) (ageHours : Int) (maxCount : Nat) :
    ∀ x ∈ get_old_orders_for_ticket ctx fetch sent ageHours maxCount,
      x ∉ sent := by
  intro x hx
  rw [get_old_orders_for_ticket, get_old_orders_scan] at hx
  have hx2 := List.take_subset maxCount _ hx
  rcases scanGo_mem ctx fetch sent _ maxCount 10 [] 0 none x hx2 with h | h
  · exact absurd h (List.not_mem_nil x)
  · exact h

/-- Witness for C1: against the concrete source, order `B` is selected and
is indeed not in the ledger `["A"]`. -/
theorem scanner_never_returns_sent_witness :
    ("B" ∈ get_old_orders_for_ticket ctxW fetchW ["A"] 1 2)
    ∧ "B" ∉ ["A"] :=
  ⟨by decide, scanner_never_returns_sent ctxW fetchW ["A"] 1 2 "B" (by decide)⟩

/-- Accumulator lemma for the redirect loop: the hop accumulator is only
ever appended to, and nothing else depends on it. -/
theorem methodGo_append (send : SendFn) (meth origUrl : String) :
    ∀ fuel i link hops,
      methodGo send meth origUrl fuel i link hops
        = ⟨(methodGo send meth origUrl fuel i link []).resp,
           hops ++ (methodGo send meth origUrl fuel i link []).hops,
           (methodGo send meth origUrl fuel i link []).fallback⟩ := by
  intro fuel
  induction fuel with
  | zero =>
    intro i link hops
    simp [methodGo]
  | succ n ih =>
    intro i link hops
    simp only [methodGo]
    cases h : redirectTarget (send meth i link false) with
    | none => simp
    | some nxt =>
      dsimp only
      rw [ih (i + 1) nxt (hops ++ [link]), ih (i + 1) nxt ([] ++ [link])]
      simp

/-- Full invariant of the redirect loop started with an empty hop
accumulator: the number of hop requests is bounded by the fuel, the first
hop is the entry link, consecutive hops are joined by followable redirect
responses, fuel exhaustion means the fallback reissue to the original URL,
and a break means the loop returned the first non-followable response. -/
theorem methodGo_nil_spec (send : SendFn) (meth origUrl : String) :
    ∀ fuel i link,
      (methodGo send meth origUrl fuel i link []).hops.length ≤ fuel
      ∧ (0 < fuel →
          (methodGo send meth origUrl fuel i link []).hops.head? = some link)
      ∧ chainFrom send meth i (methodGo send meth origUrl fuel i link []).hops
          = true
      ∧ ((methodGo send meth origUrl fuel i link []).fallback = true →
          (methodGo send meth origUrl fuel i link []).resp
              = send meth (i + fuel) origUrl true
          ∧ (methodGo send meth origUrl fuel i link []).hops.length = fuel)
      ∧ ((methodGo send meth origUrl fuel i link []).fallback = false →
          ∃ l, (methodGo send meth origUrl fuel i link []).hops.getLast?
                 = some l
            ∧ redirectTarget (methodGo send meth origUrl fuel i link []).resp
                = none
            ∧ (methodGo send meth origUrl fuel i link []).resp
                = send meth
                    (i + (methodGo send meth origUrl fuel i link []).hops.length
                      - 1) l false) := by
  intro fuel
  induction fuel with
  | zero =>
    intro i link
    refine ⟨by simp [methodGo], by omega, by simp [methodGo, chainFrom], ?_, ?_⟩
    · intro _
      simp [methodGo]
    · intro hf
      simp [methodGo] at hf
  | succ n ih =>
    intro i link
    simp only [methodGo]
    cases h : redirectTarget (send meth i link false) with
    | none =>
      refine ⟨by simp, by simp, by simp [chainFrom], ?_, ?_⟩
      · intro hf
        simp at hf
      · intro _
        exact ⟨link, by simp, by simpa using h, by simp⟩
    | some nxt =>
      dsimp only
      rw [methodGo_append send meth origUrl n (i + 1) nxt ([] ++ [link])]
      obtain ⟨ihLen, ihHead, ihChain, ihFb, ihBr⟩ := ih (i + 1) nxt
      refine ⟨by simpa using ihLen, by simp, ?_, ?_, ?_⟩
      · cases hz : (methodGo send meth origUrl n (i + 1) nxt []).hops with
        | nil => simp [hz, chainFrom]
        | cons b bs =>
          have hn : 0 < n := by
            by_contra hn0
            have : n = 0 := by omega
            subst this
            simp [methodGo] at hz
          have hb : b = nxt := by
            have hh := ihHead hn
            rw [hz] at hh
            simpa using hh
          have hch : chainFrom send meth (i + 1) (b :: bs) = true := by
            rw [← hz]
            exact ihChain
          rw [hb] at hch
          simp [hz, chainFrom, h, hb, hch]
      · intro hf
        simp only [] at hf
        obtain ⟨hresp, hlen⟩ := ihFb hf
        constructor
        · simpa [show i + 1 + n = i + (n + 1) by omega] using hresp
        · simpa using hlen
      · intro hf
        simp only [] at hf
        obtain ⟨l, hl, hrt, hresp⟩ := ihBr hf
        have hne : (methodGo send meth origUrl n (i + 1) nxt []).hops ≠ [] := by
          intro hnil
          rw [hnil] at hl
          simp at hl
        refine ⟨l, ?_, hrt, ?_⟩
        · simpa using List.getLast?_append_of_ne_nil [link] hne ▸ hl
        · have hlen1 :
              1 ≤ (methodGo send meth origUrl n (i + 1) nxt []).hops.length := by
            cases hcc : (methodGo send meth origUrl n (i + 1) nxt []).hops with
            | nil => exact absurd hcc hne
            | cons y ys => simp [hcc]
          have heq : i + (([] ++ [link])
                ++ (methodGo send meth origUrl n (i + 1) nxt []).hops).length - 1
              = i + 1
                + (methodGo send meth origUrl n (i + 1) nxt []).hops.length
                - 1 := by
            simp
          rw [heq]
          exact hresp

/-- C3: for every transport behaviour, request method and URL, the HTTP
wrapper manually follows redirects for at most 10 requests (original plus
redirect hops, each issued with `allow_redirects=False`); consecutive hops
are joined by responses with status in 300–399 carrying a `Location` that
is present, non-empty and not the root path `"/"`; when the hop limit is
exhausted the wrapper reissues the original request to the original URL
(the `for`-`else` fallback) and returns that response with no further
redirect-following by the wrapper; and when it stops early, the returned
response is the first one that is not a followable redirect. -/
theorem method_redirect_policy (send : SendFn) (meth url : String) :
    (FunPaySupportAPI.method send meth url).hops.length ≤ 10
    ∧ (FunPaySupportAPI.method send meth url).hops.head? = some url
    ∧ chainFrom send meth 0 (FunPaySupportAPI.method send meth url).hops
        = true
    ∧ ((FunPaySupportAPI.method send meth url).fallback = true →
        (FunPaySupportAPI.method send meth url).resp = send meth 10 url true
        ∧ (FunPaySupportAPI.method send meth url).hops.length = 10)
    ∧ ((FunPaySupportAPI.method send meth url).fallback = false →
        ∃ l, (FunPaySupportAPI.method send meth url).hops.getLast? = some l
          ∧ redirectTarget (FunPaySupportAPI.method send meth url).resp = none
          ∧ (FunPaySupportAPI.method send meth url).resp
              = send meth
                  ((FunPaySupportAPI.method send meth url).hops.length - 1)
                  l false) := by
  obtain ⟨hLen, hHead, hChain, hFb, hBr⟩ :=
    methodGo_nil_spec send meth url 10 0 url
  refine ⟨hLen, hHead (by omega), hChain, ?_, ?_⟩
  · intro hf
    obtain ⟨h1, h2⟩ := hFb hf
    exact ⟨h1, h2⟩
  · intro hf
    obtain ⟨l, h1, h2, h3⟩ := hBr hf
    exact ⟨l, h1, h2, by simpa using h3⟩

/-- Witness for C3: a transport that always redirects exhausts the ten
hops and the wrapper reissues the original request to the original URL. -/
theorem method_redirect_policy_witness :
    (FunPaySupportAPI.method sendLoop "get" "https://support.funpay.com/").resp
      = sendLoop "get" 10 "https://support.funpay.com/" true
    ∧ (FunPaySupportAPI.method sendLoop "get"
        "https://support.funpay.com/").hops.length = 10 :=
  (method_redirect_policy sendLoop "get"
    "https://support.funpay.com/").2.2.2.1 (by decide)

/-- Against the always-success backend, every per-order step succeeds. -/
theorem report_raw_allSuccess (d : String) :
    report_deal_problem_raw envAllSuccess d = true := by
  have h : classifySuccess
      { action := some "message", message := some "Заявка отправлена",
        url := some "/tickets/1" } = true := by decide
  simp [report_deal_problem_raw, reportStep, envAllSuccess, h]

/-- Against the always-success backend, the batch loop reports every
candidate. -/
theorem report_allSuccess (c : List String) :
    report_deal_problems envAllSuccess c = c := by
  induction c with
  | nil => rfl
  | cons d rest ih => simp [report_deal_problems, report_raw_allSuccess, ih]

/-- One always-success run extends the ledger by exactly the candidate
list (the `extend` is an append without deduplication). -/
theorem runOnce_allSuccess (s : PSettings) (c : List String) :
    (runOrchestratorOnce envAllSuccess s c).sent_order_ids
      = s.sent_order_ids ++ c := by
  cases c with
  | nil => simp [runOrchestratorOnce, act_send_ticket_finish, report_allSuccess]
  | cons d rest =>
    rw [runOrchestratorOnce, report_allSuccess, act_send_ticket_finish]
    simp

/-- Counterexample to C2 as stated: running the Orchestrator twice with
the literal same candidate set `["100"]` against the always-success
backend, merging each run's successes into the Ledger, leaves `"100"` in
`sent_order_ids` twice — not exactly once. -/
theorem orchestrator_not_idempotent_cex :
    (runOrchestratorOnce envAllSuccess
        (runOrchestratorOnce envAllSuccess ⟨24, 10, []⟩ ["100"])
        ["100"]).sent_order_ids = ["100", "100"]
    ∧ ¬ (runOrchestratorOnce envAllSuccess
        (runOrchestratorOnce envAllSuccess ⟨24, 10, []⟩ ["100"])
        ["100"]).sent_order_ids.Nodup := by
  constructor
  · rw [runOnce_allSuccess, runOnce_allSuccess]
    rfl
  · rw [runOnce_allSuccess, runOnce_allSuccess]
    decide

/-- C2 (amended): two Orchestrator runs against the always-success
backend, merged into the Ledger, leave every submitted id in the Ledger
and keep the Ledger duplicate-free provided each run's candidate set is
itself duplicate-free and disjoint from the Ledger as it stands at that
run's start (which is what the Scanner guarantees when it produces the
candidates); the literal same nonempty candidate set on both runs violates
this premise and duplicates its ids. -/
theorem orchestrator_idempotent_amended (s : PSettings) (c1 c2 : List String)
    (hs : s.sent_order_ids.Nodup) (h1 : c1.Nodup)
    (hd1 : ∀ x ∈ c1, x ∉ s.sent_order_ids)
    (h2 : c2.Nodup)
    (hd2 : ∀ x ∈ c2,
      x ∉ (runOrchestratorOnce envAllSuccess s c1).sent_order_ids) :
    (runOrchestratorOnce envAllSuccess (runOrchestratorOnce envAllSuccess s c1)
        c2).sent_order_ids.Nodup
    ∧ ∀ x, (x ∈ s.sent_order_ids ∨ x ∈ c1 ∨ x ∈ c2) →
        x ∈ (runOrchestratorOnce envAllSuccess
              (runOrchestratorOnce envAllSuccess s c1) c2).sent_order_ids := by
  have e1 := runOnce_allSuccess s c1
  have e2 := runOnce_allSuccess (runOrchestratorOnce envAllSuccess s c1) c2
  rw [e1] at hd2 e2
  constructor
  · rw [e2]
    have n1 : (s.sent_order_ids ++ c1).Nodup := by
      refine List.Nodup.append hs h1 ?_
      intro a ha hb
      exact hd1 a hb ha
    refine List.Nodup.append n1 h2 ?_
    intro a ha hb
    exact hd2 a hb ha
  · intro x hx
    rw [e2]
    rcases hx with h | h | h
    · exact List.mem_append.mpr (Or.inl (List.mem_append.mpr (Or.inl h)))
    · exact List.mem_append.mpr (Or.inl (List.mem_append.mpr (Or.inr h)))
    · exact List.mem_append.mpr (Or.inr h)

/-- Witness for the amended C2 on concrete disjoint candidate sets. -/
theorem orchestrator_idempotent_amended_witness :
    (runOrchestratorOnce envAllSuccess
        (runOrchestratorOnce envAllSuccess ⟨24, 10, []⟩ ["1"])
        ["2"]).sent_order_ids.Nodup :=
  (orchestrator_idempotent_amended ⟨24, 10, []⟩ ["1"] ["2"] (by decide)
    (by decide) (by decide) (by decide) (by decide)).1
